import Mathlib

/-!
Verification development for the signature-extraction engine in
`src/project-structure/parser.ts`.

The TypeScript syntax tree is shallowly embedded: one constructor per
`ts.SyntaxKind` the parser inspects.  Parent-pointer walks of the source
(`node.parent`) are modelled by passing the list of ancestors (nearest
first) alongside each node.  `ts.Node.getText` (which returns original
source text) is modelled by a canonical printer; nodes whose exact text the
parser only copies verbatim carry that text in a `raw` field.
Machine integers do not occur; the `depth` budget is an `Int` as in the
source (`number`, decremented below zero).
-/

set_option linter.unusedVariables false

/-- Whitespace test used to model the regexes `\s+` and `\n\s*`. -/
def isWSChar (c : Char) : Bool :=
  c == ' ' || c == '\t' || c == '\n' || c == '\r' || c == '\x0c' || c == '\x0b'

/-- Worker for `collapseWS`: `inRun` records whether the previous character
was part of a whitespace run already replaced by a single space. -/
def cwsGo : Bool → List Char → List Char
  | _, [] => []
  | inRun, c :: rest =>
    if isWSChar c then
      if inRun then cwsGo true rest else ' ' :: cwsGo true rest
    else c :: cwsGo false rest

/-- Models `s.replace(/\s+/g, ' ')`: every maximal whitespace run becomes
one space. -/
def collapseWS (s : String) : String := String.mk (cwsGo false s.toList)

mutual

/-- Worker for `cleanNL` (`s.replace(/\n\s*/g, ' ')`): scanning state. -/
def cnlGo : List Char → List Char
  | [] => []
  | c :: rest => if c == '\n' then ' ' :: cnlDrop rest else c :: cnlGo rest

/-- Worker for `cleanNL`: consumes the `\s*` part of a match. -/
def cnlDrop : List Char → List Char
  | [] => []
  | c :: rest => if isWSChar c then cnlDrop rest else c :: cnlGo rest

end

/-- Models `s.replace(/\n\s*/g, ' ')` (parameter-type cleanup). -/
def cleanNL (s : String) : String := String.mk (cnlGo s.toList)

/-- Models `s.substring(0, n)` on JavaScript strings. -/
def strTake (s : String) (n : Nat) : String := String.mk (s.toList.take n)

/-- Models `s.endsWith(t)`. -/
def strEndsWith (s t : String) : Bool := List.isSuffixOf t.toList s.toList

/-- Worker for `strContains`. -/
def strContainsGo (pat : List Char) : List Char → Bool
  | [] => List.isPrefixOf pat []
  | c :: rest => List.isPrefixOf pat (c :: rest) || strContainsGo pat rest

/-- Models `s.includes(t)`. -/
def strContains (s t : String) : Bool := strContainsGo t.toList s.toList

/-- JavaScript truthiness of a `string | undefined` value: `undefined` and
the empty string are falsy. -/
def optTruthy : Option String → Bool
  | none => false
  | some s => !(s == "")

/-- Models `a || b` on `string | undefined` values. -/
def orElseStr (a b : Option String) : Option String :=
  if optTruthy a then a else b

mutual

/-- Embedding of the type-expression nodes `simplifyType` dispatches on.
Node kinds the source does not treat specially carry their raw text in
`otherType` (the fallback case); mapped types also keep their raw text,
which is all the source uses of them. -/
inductive TypeNode where
  | typeRef (name : String) (args : List TypeNode)
  | arrayType (elem : TypeNode)
  | unionType (types : List TypeNode)
  | intersectionType (types : List TypeNode)
  | typeLiteral (members : List TypeMember)
  | functionType (params : List FnTypeParam) (ret : TypeNode)
  | tupleType (elems : List TypeNode)
  | parenType (inner : TypeNode)
  | conditionalType (checkT extendsT trueT falseT : TypeNode)
  | mappedType (raw : String)
  | indexedAccessType (objT idxT : TypeNode)
  | otherType (raw : String)

/-- A member of an inline type literal as `simplifyType` sees it: a
property signature, or anything else (rendered as an ellipsis). -/
inductive TypeMember where
  | propSig (pname : String) (optional : Bool) (ptype : Option TypeNode)
  | otherMember

/-- A parameter of a function-type node (`p.name.getText`, `p.type`). -/
inductive FnTypeParam where
  | mk (pname : String) (ptype : Option TypeNode)

end

mutual

/-- Canonical model of `ts.Node.getText` on a type node (the parser uses
raw type text for parameter annotations and return annotations). -/
def typeText : TypeNode → String
  | .typeRef name args =>
    name ++ (match args with
      | [] => ""
      | a :: rest => "<" ++ String.intercalate ", " (typeTextList (a :: rest)) ++ ">")
  | .arrayType elem => typeText elem ++ "[]"
  | .unionType ts => String.intercalate " | " (typeTextList ts)
  | .intersectionType ts => String.intercalate " & " (typeTextList ts)
  | .typeLiteral ms => "\x7b " ++ String.intercalate "; " (typeTextMembers ms) ++ " \x7d"
  | .functionType ps ret =>
    "(" ++ String.intercalate ", " (typeTextParams ps) ++ ") => " ++ typeText ret
  | .tupleType es => "[" ++ String.intercalate ", " (typeTextList es) ++ "]"
  | .parenType inner => "(" ++ typeText inner ++ ")"
  | .conditionalType c e t f =>
    typeText c ++ " extends " ++ typeText e ++ " ? " ++ typeText t ++ " : " ++ typeText f
  | .mappedType raw => raw
  | .indexedAccessType o i => typeText o ++ "[" ++ typeText i ++ "]"
  | .otherType raw => raw

/-- Canonical text of each element of a type-node list. -/
def typeTextList : List TypeNode → List String
  | [] => []
  | t :: rest => typeText t :: typeTextList rest

/-- Canonical text of type-literal members. -/
def typeTextMembers : List TypeMember → List String
  | [] => []
  | .propSig n o t :: rest =>
    (n ++ (if o then "?" else "") ++ ": " ++ typeTextOpt t) :: typeTextMembers rest
  | .otherMember :: rest => "..." :: typeTextMembers rest

/-- Canonical text of function-type parameters. -/
def typeTextParams : List FnTypeParam → List String
  | [] => []
  | .mk n t :: rest => (n ++ ": " ++ typeTextOpt t) :: typeTextParams rest

/-- Canonical text of an optional type annotation. -/
def typeTextOpt : Option TypeNode → String
  | none => "any"
  | some t => typeText t

end

mutual

/-- Embeds `simplifyType(node, sourceFile, depth)` from the source: the
`node: ts.TypeNode | undefined` argument is the `Option`.  `!node || depth
< 0` yields the fixed ellipsis. -/
def simplifyType : Option TypeNode → Int → String
  | none, _ => "..."
  | some t, depth => simplifyTCore t depth

/-- The body of `simplifyType` once the node is present: the `depth < 0`
guard, then the per-kind dispatch. -/
def simplifyTCore : TypeNode → Int → String
  | t, depth =>
    if depth < 0 then "..."
    else
      match t with
      | .typeRef name args =>
        (match args with
         | [] => name
         | a :: rest =>
           if depth == 0 then name ++ "<...>"
           else name ++ "<" ++ String.intercalate ", " (simplifyList (a :: rest) (depth - 1)) ++ ">")
      | .arrayType elem => simplifyTCore elem depth ++ "[]"
      | .unionType ts =>
        if depth == 0 then "..."
        else String.intercalate " | " (simplifyList ts depth)
      | .intersectionType ts =>
        if depth == 0 then "..."
        else String.intercalate " & " (simplifyList ts depth)
      | .typeLiteral ms =>
        if depth == 0 then "\x7b ... \x7d"
        else "\x7b " ++ String.intercalate "; " (simplifyMembers ms depth) ++ " \x7d"
      | .functionType ps ret =>
        if depth == 0 then "(...) => ..."
        else "(" ++ String.intercalate ", " (simplifyFnParams ps (depth - 1)) ++ ") => " ++
          simplifyTCore ret (depth - 1)
      | .tupleType es =>
        if depth == 0 then "[...]"
        else "[" ++ String.intercalate ", " (simplifyList es (depth - 1)) ++ "]"
      | .parenType inner => "(" ++ simplifyTCore inner depth ++ ")"
      | .conditionalType c e tr fa =>
        if depth == 0 then "... ? ... : ..."
        else simplifyTCore c (depth - 1) ++ " extends " ++ simplifyTCore e (depth - 1) ++
          " ? " ++ simplifyTCore tr (depth - 1) ++ " : " ++ simplifyTCore fa (depth - 1)
      | .mappedType raw =>
        if depth == 0 then "\x7b [K in ...]: ... \x7d"
        else strTake (collapseWS raw) 80 ++ (if raw.length > 80 then "..." else "")
      | .indexedAccessType o i =>
        simplifyTCore o depth ++ "[" ++ simplifyTCore i depth ++ "]"
      | .otherType raw =>
        let text := collapseWS raw
        if text.length > 60 then strTake text 60 ++ "..." else text

/-- Embeds `node.typeArguments.map(arg => simplifyType(arg, ...))` and
the like. -/
def simplifyList : List TypeNode → Int → List String
  | [], _ => []
  | t :: ts, depth => simplifyTCore t depth :: simplifyList ts depth

/-- Embeds `node.members.map(...)` of a type literal. -/
def simplifyMembers : List TypeMember → Int → List String
  | [], _ => []
  | .propSig n opt oty :: ms, depth =>
    (n ++ (if opt then "?" else "") ++ ": " ++ simplifyType oty (depth - 1)) :: simplifyMembers ms depth
  | .otherMember :: ms, depth => "..." :: simplifyMembers ms depth

/-- Embeds `node.parameters.map(...)` of a function type (already at
`depth-1`). -/
def simplifyFnParams : List FnTypeParam → Int → List String
  | [], _ => []
  | .mk n oty :: ps, dm1 => (n ++ ": " ++ simplifyType oty dm1) :: simplifyFnParams ps dm1

end

/-- Declaration modifiers the parser tests for. -/
inductive Modifier where
  | exportMod
  | defaultMod
  | asyncMod
  | staticMod
  | otherMod
deriving DecidableEq

/-- A member/property name: the parser distinguishes identifier names
(`ts.isIdentifier(node.name)`) from everything else. -/
inductive PropName where
  | idName (text : String)
  | otherName (raw : String)
deriving DecidableEq

/-- A module declaration's name: a plain identifier (namespace) or a quoted
string literal (ambient module). -/
inductive ModName where
  | mid (text : String)
  | mstr (text : String)
deriving DecidableEq

/-- A declared value parameter: `p.name.getText` text and the optional
type annotation. -/
structure Param where
  pname : String
  ptype : Option TypeNode

/-- A generic type parameter (`tp.name`, `tp.constraint`, `tp.default`). -/
structure TypeParam where
  tpName : String
  constraint : Option TypeNode
  dflt : Option TypeNode

/-- A heritage clause; `typeTexts` models `t.getText(sourceFile)` of each
clause type. -/
structure Heritage where
  isExtends : Bool
  typeTexts : List String

/-- An enum member: name and the raw text of its initializer, if any. -/
structure EnumMember where
  emName : String
  emInit : Option String

/-- An interface member as the interface extractor classifies it. -/
inductive MemberSig where
  | mPropSig (pname : String) (optional : Bool) (ptype : Option TypeNode)
  | mMethodSig (mname : String) (params : List Param) (retType : Option TypeNode)
  | mIndexSig (ipName : String) (ipType : Option TypeNode) (valType : Option TypeNode)
  | mOtherSig

/-- Mirror of the `FunctionSignature` record interface of the source. -/
structure FunctionSignature where
  name : String
  parameters : List (String × String)
  returnType : String
  fullSignature : String
  filePath : String
  isExported : Bool
  parentName : Option String
  isTrpcProcedure : Bool
  procedureType : Option String
  hasInput : Bool
  inputSchemaName : Option String
  inputSchemaText : Option String
deriving DecidableEq

/-- Mirror of the `TypeSignature` record interface of the source; `kind`
holds the literal kind strings of the source union type. -/
structure TypeSignature where
  name : String
  kind : String
  fullSignature : String
  filePath : String
  isExported : Bool
deriving DecidableEq

/-- Mirror of `ParseResult`. -/
structure ParseResult where
  functions : List FunctionSignature
  types : List TypeSignature
deriving DecidableEq

/-- Embedding of the syntax-tree nodes the parser dispatches on.  One
constructor per `ts.SyntaxKind` it inspects; `other` covers every
remaining kind with its raw text.  Type annotations are `TypeNode`s and
are not themselves traversed (the tree walker never emits anything from
inside them). -/
inductive Node where
  | sourceFile (stmts : List Node)
  | variableStatement (mods : List Modifier) (declList : Node)
  | variableDeclarationList (decls : List Node)
  | variableDeclaration (nameNode : Node) (initz : Option Node)
  | identifier (text : String)
  | stringLit (text : String)
  | functionDeclaration (mods : List Modifier) (fname : Option String)
      (params : List Param) (retType : Option TypeNode) (body : Option Node)
  | functionExpression (fname : Option String) (params : List Param)
      (retType : Option TypeNode) (body : Node)
  | arrowFunction (params : List Param) (retType : Option TypeNode) (body : Node)
  | methodDeclaration (mods : List Modifier) (mname : PropName)
      (params : List Param) (retType : Option TypeNode) (body : Option Node)
  | constructorDeclaration (params : List Param) (body : Option Node)
  | propertyDeclaration (mods : List Modifier) (pname : PropName)
      (optional : Bool) (ptype : Option TypeNode)
  | classDeclaration (mods : List Modifier) (cname : Option String)
      (typeParams : List TypeParam) (heritage : List Heritage) (members : List Node)
  | interfaceDeclaration (mods : List Modifier) (iname : String)
      (typeParams : List TypeParam) (heritage : List Heritage) (members : List MemberSig)
  | typeAliasDeclaration (mods : List Modifier) (aname : String)
      (typeParams : List TypeParam) (aliased : TypeNode)
  | enumDeclaration (mods : List Modifier) (ename : String) (members : List EnumMember)
  | moduleDeclaration (mods : List Modifier) (mdName : ModName) (body : Option Node)
  | moduleBlock (stmts : List Node)
  | callExpression (callee : Node) (args : List Node)
  | propertyAccessExpression (obj : Node) (accName : String)
  | objectLiteral (props : List Node)
  | propertyAssignment (pname : PropName) (initz : Node)
  | parenExpr (inner : Node)
  | jsxElement (children : List Node)
  | jsxSelfClosing
  | jsxFragment (children : List Node)
  | returnStatement (expr : Option Node)
  | block (stmts : List Node)
  | exportDeclaration (specs : List Node)
  | exportSpecifier (ename : String)
  | expressionStatement (expr : Node)
  | other (raw : String)

mutual

/-- Structural equality on type nodes (component of node identity). -/
def typeBeq : TypeNode → TypeNode → Bool
  | .typeRef n1 a1, .typeRef n2 a2 => n1 == n2 && typeListBeq a1 a2
  | .arrayType e1, .arrayType e2 => typeBeq e1 e2
  | .unionType t1, .unionType t2 => typeListBeq t1 t2
  | .intersectionType t1, .intersectionType t2 => typeListBeq t1 t2
  | .typeLiteral m1, .typeLiteral m2 => memberListBeq m1 m2
  | .functionType p1 r1, .functionType p2 r2 => fnParamListBeq p1 p2 && typeBeq r1 r2
  | .tupleType e1, .tupleType e2 => typeListBeq e1 e2
  | .parenType i1, .parenType i2 => typeBeq i1 i2
  | .conditionalType a1 b1 c1 d1, .conditionalType a2 b2 c2 d2 =>
    typeBeq a1 a2 && typeBeq b1 b2 && typeBeq c1 c2 && typeBeq d1 d2
  | .mappedType r1, .mappedType r2 => r1 == r2
  | .indexedAccessType o1 i1, .indexedAccessType o2 i2 => typeBeq o1 o2 && typeBeq i1 i2
  | .otherType r1, .otherType r2 => r1 == r2
  | _, _ => false

/-- Structural equality on type-node lists. -/
def typeListBeq : List TypeNode → List TypeNode → Bool
  | [], [] => true
  | a :: as_, b :: bs => typeBeq a b && typeListBeq as_ bs
  | _, _ => false

/-- Structural equality on optional type nodes. -/
def typeOptBeq : Option TypeNode → Option TypeNode → Bool
  | none, none => true
  | some a, some b => typeBeq a b
  | _, _ => false

/-- Structural equality on type-literal member lists. -/
def memberListBeq : List TypeMember → List TypeMember → Bool
  | [], [] => true
  | .propSig n1 o1 t1 :: r1, .propSig n2 o2 t2 :: r2 =>
    n1 == n2 && o1 == o2 && typeOptBeq t1 t2 && memberListBeq r1 r2
  | .otherMember :: r1, .otherMember :: r2 => memberListBeq r1 r2
  | _, _ => false

/-- Structural equality on function-type parameter lists. -/
def fnParamListBeq : List FnTypeParam → List FnTypeParam → Bool
  | [], [] => true
  | .mk n1 t1 :: r1, .mk n2 t2 :: r2 => n1 == n2 && typeOptBeq t1 t2 && fnParamListBeq r1 r2
  | _, _ => false

end

/-- Structural equality on value parameters. -/
def paramBeq (a b : Param) : Bool := a.pname == b.pname && typeOptBeq a.ptype b.ptype

/-- Structural equality on value-parameter lists. -/
def paramListBeq : List Param → List Param → Bool
  | [], [] => true
  | a :: as_, b :: bs => paramBeq a b && paramListBeq as_ bs
  | _, _ => false

/-- Structural equality on generic type parameters. -/
def typeParamBeq (a b : TypeParam) : Bool :=
  a.tpName == b.tpName && typeOptBeq a.constraint b.constraint && typeOptBeq a.dflt b.dflt

/-- Structural equality on generic type-parameter lists. -/
def typeParamListBeq : List TypeParam → List TypeParam → Bool
  | [], [] => true
  | a :: as_, b :: bs => typeParamBeq a b && typeParamListBeq as_ bs
  | _, _ => false

/-- Structural equality on heritage clauses. -/
def heritageBeq (a b : Heritage) : Bool :=
  a.isExtends == b.isExtends && a.typeTexts == b.typeTexts

/-- Structural equality on heritage-clause lists. -/
def heritageListBeq : List Heritage → List Heritage → Bool
  | [], [] => true
  | a :: as_, b :: bs => heritageBeq a b && heritageListBeq as_ bs
  | _, _ => false

/-- Structural equality on enum members. -/
def enumMemberBeq (a b : EnumMember) : Bool := a.emName == b.emName && a.emInit == b.emInit

/-- Structural equality on enum-member lists. -/
def enumMemberListBeq : List EnumMember → List EnumMember → Bool
  | [], [] => true
  | a :: as_, b :: bs => enumMemberBeq a b && enumMemberListBeq as_ bs
  | _, _ => false

/-- Structural equality on interface members. -/
def memberSigBeq : MemberSig → MemberSig → Bool
  | .mPropSig n1 o1 t1, .mPropSig n2 o2 t2 => n1 == n2 && o1 == o2 && typeOptBeq t1 t2
  | .mMethodSig n1 p1 r1, .mMethodSig n2 p2 r2 =>
    n1 == n2 && paramListBeq p1 p2 && typeOptBeq r1 r2
  | .mIndexSig n1 t1 v1, .mIndexSig n2 t2 v2 =>
    n1 == n2 && typeOptBeq t1 t2 && typeOptBeq v1 v2
  | .mOtherSig, .mOtherSig => true
  | _, _ => false

/-- Structural equality on interface-member lists. -/
def memberSigListBeq : List MemberSig → List MemberSig → Bool
  | [], [] => true
  | a :: as_, b :: bs => memberSigBeq a b && memberSigListBeq as_ bs
  | _, _ => false

mutual

/-- Structural equality on syntax-tree nodes; models reference identity
(`===`), which over a tree agrees with structural identity at the
positions where the parser compares (an ancestor strictly contains the
compared node, so only the immediate parent can succeed). -/
def nodeBeq : Node → Node → Bool
  | .sourceFile s1, .sourceFile s2 => nodeListBeq s1 s2
  | .variableStatement m1 d1, .variableStatement m2 d2 => m1 == m2 && nodeBeq d1 d2
  | .variableDeclarationList d1, .variableDeclarationList d2 => nodeListBeq d1 d2
  | .variableDeclaration n1 i1, .variableDeclaration n2 i2 => nodeBeq n1 n2 && nodeOptBeq i1 i2
  | .identifier t1, .identifier t2 => t1 == t2
  | .stringLit t1, .stringLit t2 => t1 == t2
  | .functionDeclaration m1 n1 p1 r1 b1, .functionDeclaration m2 n2 p2 r2 b2 =>
    m1 == m2 && n1 == n2 && paramListBeq p1 p2 && typeOptBeq r1 r2 && nodeOptBeq b1 b2
  | .functionExpression n1 p1 r1 b1, .functionExpression n2 p2 r2 b2 =>
    n1 == n2 && paramListBeq p1 p2 && typeOptBeq r1 r2 && nodeBeq b1 b2
  | .arrowFunction p1 r1 b1, .arrowFunction p2 r2 b2 =>
    paramListBeq p1 p2 && typeOptBeq r1 r2 && nodeBeq b1 b2
  | .methodDeclaration m1 n1 p1 r1 b1, .methodDeclaration m2 n2 p2 r2 b2 =>
    m1 == m2 && n1 == n2 && paramListBeq p1 p2 && typeOptBeq r1 r2 && nodeOptBeq b1 b2
  | .constructorDeclaration p1 b1, .constructorDeclaration p2 b2 =>
    paramListBeq p1 p2 && nodeOptBeq b1 b2
  | .propertyDeclaration m1 n1 o1 t1, .propertyDeclaration m2 n2 o2 t2 =>
    m1 == m2 && n1 == n2 && o1 == o2 && typeOptBeq t1 t2
  | .classDeclaration m1 n1 t1 h1 mem1, .classDeclaration m2 n2 t2 h2 mem2 =>
    m1 == m2 && n1 == n2 && typeParamListBeq t1 t2 && heritageListBeq h1 h2 && nodeListBeq mem1 mem2
  | .interfaceDeclaration m1 n1 t1 h1 mem1, .interfaceDeclaration m2 n2 t2 h2 mem2 =>
    m1 == m2 && n1 == n2 && typeParamListBeq t1 t2 && heritageListBeq h1 h2 &&
      memberSigListBeq mem1 mem2
  | .typeAliasDeclaration m1 n1 t1 a1, .typeAliasDeclaration m2 n2 t2 a2 =>
    m1 == m2 && n1 == n2 && typeParamListBeq t1 t2 && typeBeq a1 a2
  | .enumDeclaration m1 n1 mem1, .enumDeclaration m2 n2 mem2 =>
    m1 == m2 && n1 == n2 && enumMemberListBeq mem1 mem2
  | .moduleDeclaration m1 n1 b1, .moduleDeclaration m2 n2 b2 =>
    m1 == m2 && n1 == n2 && nodeOptBeq b1 b2
  | .moduleBlock s1, .moduleBlock s2 => nodeListBeq s1 s2
  | .callExpression c1 a1, .callExpression c2 a2 => nodeBeq c1 c2 && nodeListBeq a1 a2
  | .propertyAccessExpression o1 n1, .propertyAccessExpression o2 n2 =>
    nodeBeq o1 o2 && n1 == n2
  | .objectLiteral p1, .objectLiteral p2 => nodeListBeq p1 p2
  | .propertyAssignment n1 i1, .propertyAssignment n2 i2 => n1 == n2 && nodeBeq i1 i2
  | .parenExpr i1, .parenExpr i2 => nodeBeq i1 i2
  | .jsxElement c1, .jsxElement c2 => nodeListBeq c1 c2
  | .jsxSelfClosing, .jsxSelfClosing => true
  | .jsxFragment c1, .jsxFragment c2 => nodeListBeq c1 c2
  | .returnStatement e1, .returnStatement e2 => nodeOptBeq e1 e2
  | .block s1, .block s2 => nodeListBeq s1 s2
  | .exportDeclaration s1, .exportDeclaration s2 => nodeListBeq s1 s2
  | .exportSpecifier n1, .exportSpecifier n2 => n1 == n2
  | .expressionStatement e1, .expressionStatement e2 => nodeBeq e1 e2
  | .other r1, .other r2 => r1 == r2
  | _, _ => false

/-- Structural equality on node lists. -/
def nodeListBeq : List Node → List Node → Bool
  | [], [] => true
  | a :: as_, b :: bs => nodeBeq a b && nodeListBeq as_ bs
  | _, _ => false

/-- Structural equality on optional nodes. -/
def nodeOptBeq : Option Node → Option Node → Bool
  | none, none => true
  | some a, some b => nodeBeq a b
  | _, _ => false

end

mutual

/-- Canonical model of `ts.Node.getText` on expression nodes.  The parser
only compares this text against identifier spellings (`createTRPCRouter`),
member-access suffixes (`.query` etc.) and copies it for debug strings, so
a canonical printer of the expression spine is faithful; statement-level
kinds never reach a `getText` call site and print as a placeholder. -/
def getTextE : Node → String
  | .identifier s => s
  | .stringLit s => "\"" ++ s ++ "\""
  | .propertyAccessExpression e n => getTextE e ++ "." ++ n
  | .callExpression f args => getTextE f ++ "(" ++ String.intercalate ", " (getTextL args) ++ ")"
  | .parenExpr e => "(" ++ getTextE e ++ ")"
  | .objectLiteral _ => "\x7b...\x7d"
  | .other raw => raw
  | _ => ""

/-- Canonical text of each node in an argument list. -/
def getTextL : List Node → List String
  | [] => []
  | e :: es => getTextE e :: getTextL es

end

/-- The modifier list of a node kind that carries modifiers (models
`'modifiers' in node && ts.canHaveModifiers(node)` together with
`node.modifiers ?? []`). -/
def nodeMods : Node → List Modifier
  | .variableStatement mods _ => mods
  | .functionDeclaration mods _ _ _ _ => mods
  | .methodDeclaration mods _ _ _ _ => mods
  | .propertyDeclaration mods _ _ _ => mods
  | .classDeclaration mods _ _ _ _ => mods
  | .interfaceDeclaration mods _ _ _ _ => mods
  | .typeAliasDeclaration mods _ _ _ => mods
  | .enumDeclaration mods _ _ => mods
  | .moduleDeclaration mods _ _ => mods
  | _ => []

/-- Whether the node kind carries a modifier list. -/
def hasModsField : Node → Bool
  | .variableStatement _ _ => true
  | .functionDeclaration _ _ _ _ _ => true
  | .methodDeclaration _ _ _ _ _ => true
  | .propertyDeclaration _ _ _ _ => true
  | .classDeclaration _ _ _ _ _ => true
  | .interfaceDeclaration _ _ _ _ _ => true
  | .typeAliasDeclaration _ _ _ _ => true
  | .enumDeclaration _ _ _ => true
  | .moduleDeclaration _ _ _ => true
  | _ => false

/-- Embeds `mods.some(m => m.kind === ExportKeyword || m.kind ===
DefaultKeyword)`. -/
def hasExportOrDefault (mods : List Modifier) : Bool :=
  mods.any (fun m => m == Modifier.exportMod) || mods.any (fun m => m == Modifier.defaultMod)

/-- The trailing ancestor walk of `isNodeExported` (source lines 743-756):
start at the node itself, stop at the source file or at a block /
module-block boundary, and report any exported variable statement,
function declaration or class declaration on the way. -/
def exportWalk : List Node → Bool
  | [] => false
  | a :: rest =>
    match a with
    | .sourceFile _ => false
    | .variableStatement mods _ => if hasExportOrDefault mods then true else exportWalk rest
    | .functionDeclaration mods _ _ _ _ => if hasExportOrDefault mods then true else exportWalk rest
    | .classDeclaration mods _ _ _ _ => if hasExportOrDefault mods then true else exportWalk rest
    | .block _ => false
    | .moduleBlock _ => false
    | _ => exportWalk rest

/-- Embeds `isNodeExported(node)`; `anc` is the ancestor chain standing in
for the `node.parent` pointers. -/
def isNodeExported (node : Node) (anc : List Node) : Bool :=
  if hasModsField node && (nodeMods node).any (fun m => m == Modifier.exportMod) then true
  else if hasModsField node && (nodeMods node).any (fun m => m == Modifier.defaultMod) then true
  else if (match anc with | .exportSpecifier _ :: _ => true | _ => false) then true
  else
    match node, anc with
    | .variableDeclaration _ _, .variableDeclarationList _ :: vs@(.variableStatement _ _) :: rest =>
      isNodeExported vs rest
    | _, _ =>
      let fnClassHit :=
        match node with
        | .functionDeclaration mods _ _ _ _ => hasExportOrDefault mods
        | .classDeclaration mods _ _ _ _ => hasExportOrDefault mods
        | _ => false
      if fnClassHit then true else exportWalk (node :: anc)

/-- Worker of `findParentName`: walks the ancestor chain; `node` is the
original node (for the `parent.initializer === node` comparison). -/
def fpnGo (node : Node) : List Node → Option String
  | [] => none
  | p :: rest =>
    match p with
    | .classDeclaration _ (some nm) _ _ _ => some nm
    | .propertyAssignment pn initz =>
      (match rest with
       | .objectLiteral _ :: .variableDeclaration (.identifier vn) _ :: _ => some vn
       | _ =>
         match pn, rest with
         | .idName _, _ :: .variableDeclaration (.identifier vn2) _ :: _ =>
           if nodeBeq initz node then some vn2 else fpnGo node rest
         | _, _ => fpnGo node rest)
    | _ => fpnGo node rest

/-- Embeds `findParentName(node)`. -/
def findParentName (node : Node) (anc : List Node) : Option String := fpnGo node anc

/-- Embeds `isInsideClassDeclaration(node)`. -/
def isInsideClassDeclaration (anc : List Node) : Bool :=
  anc.any fun a => match a with | .classDeclaration _ _ _ _ _ => true | _ => false

/-- Worker of `isInsideTrpcProcedureChain`. -/
def chainAncCheck (node : Node) : List Node → Bool
  | [] => false
  | p :: rest =>
    (match p with
     | .callExpression callee _ =>
       let exprText := getTextE callee
       strEndsWith exprText ".query" || strEndsWith exprText ".mutation" ||
         strEndsWith exprText ".input" || strEndsWith exprText ".use" ||
         strContains exprText "Procedure" || exprText == "createTRPCRouter"
     | _ => false)
    ||
    (match p, rest with
     | .propertyAssignment _ initz, .objectLiteral _ :: .callExpression callee2 _ :: _ =>
       nodeBeq initz node && getTextE callee2 == "createTRPCRouter"
     | _, _ => false)
    || chainAncCheck node rest

/-- Embeds `isInsideTrpcProcedureChain(node)`. -/
def isInsideTrpcProcedureChain (node : Node) (anc : List Node) : Bool :=
  chainAncCheck node anc

/-- Embeds `member.name.getText(sourceFile)` on a property name. -/
def propNameText : PropName → String
  | .idName s => s
  | .otherName raw => raw

/-- Embeds `node.name.getText(sourceFile)` on a module name (string-literal names
keep their quotes in source text). -/
def modNameText : ModName → String
  | .mid s => s
  | .mstr s => "\"" ++ s ++ "\""

/-- The shared generic-parameter rendering of the three type extractors. -/
def renderGenerics (tps : List TypeParam) (depth : Int) : String :=
  match tps with
  | [] => ""
  | _ =>
    "<" ++ String.intercalate ", " (tps.map fun tp =>
      tp.tpName ++
        (match tp.constraint with
         | some c => " extends " ++ simplifyType (some c) (depth - 1)
         | none => "") ++
        (match tp.dflt with
         | some d => " = " ++ simplifyType (some d) (depth - 1)
         | none => "")) ++ ">"

/-- Embeds `extractInterfaceSignature`. -/
def extractInterfaceSignature (node : Node) (anc : List Node) (filePath : String)
    (depth : Int) : Option TypeSignature :=
  match node with
  | .interfaceDeclaration _ name typeParams heritage members =>
    let isExp := isNodeExported node anc
    let generics := renderGenerics typeParams depth
    let extendsClause :=
      match heritage.filter (fun h => h.isExtends) with
      | [] => ""
      | h :: _ => " extends " ++ String.intercalate ", " h.typeTexts
    let memberStrs := members.filterMap fun m =>
      match m with
      | .mPropSig n opt t =>
        some (n ++ (if opt then "?" else "") ++ ": " ++ simplifyType t depth)
      | .mMethodSig n ps rt =>
        let params := String.intercalate ", "
          (ps.map fun p => p.pname ++ ": " ++ simplifyType p.ptype (depth - 1))
        let returnType := match rt with
          | some t => simplifyType (some t) (depth - 1)
          | none => "void"
        some (n ++ "(" ++ params ++ "): " ++ returnType)
      | .mIndexSig ipn ipt vt =>
        some ("[" ++ ipn ++ ": " ++ simplifyType ipt (depth - 1) ++ "]: " ++
          simplifyType vt (depth - 1))
      | .mOtherSig => none
    let fullSignature :=
      "interface " ++ name ++ generics ++ extendsClause ++ " \x7b " ++
        String.intercalate "; " memberStrs ++ " \x7d"
    some { name, kind := "interface", fullSignature, filePath, isExported := isExp }
  | _ => none

/-- Embeds `extractTypeAliasSignature`. -/
def extractTypeAliasSignature (node : Node) (anc : List Node) (filePath : String)
    (depth : Int) : Option TypeSignature :=
  match node with
  | .typeAliasDeclaration _ name typeParams aliased =>
    let isExp := isNodeExported node anc
    let generics := renderGenerics typeParams depth
    let typeValue := simplifyType (some aliased) depth
    some { name, kind := "type",
           fullSignature := "type " ++ name ++ generics ++ " = " ++ typeValue,
           filePath, isExported := isExp }
  | _ => none

/-- Embeds `extractEnumSignature`. -/
def extractEnumSignature (node : Node) (anc : List Node) (filePath : String) :
    Option TypeSignature :=
  match node with
  | .enumDeclaration _ name members =>
    let isExp := isNodeExported node anc
    let memberStrs := members.map fun m =>
      match m.emInit with
      | some v => m.emName ++ " = " ++ v
      | none => m.emName
    some { name, kind := "enum",
           fullSignature := "enum " ++ name ++ " \x7b " ++
             String.intercalate ", " memberStrs ++ " \x7d",
           filePath, isExported := isExp }
  | _ => none

/-- The per-member rendering of `extractClassSignature`. -/
def classMemberRender (depth : Int) (member : Node) : Option String :=
  match member with
  | .propertyDeclaration pmods pn opt pt =>
    let staticMod := if pmods.any (fun m => m == Modifier.staticMod) then "static " else ""
    some (staticMod ++ propNameText pn ++ (if opt then "?" else "") ++ ": " ++
      simplifyType pt depth)
  | .methodDeclaration mmods mn ps rt _ =>
    let params := String.intercalate ", "
      (ps.map fun p => p.pname ++ ": " ++ simplifyType p.ptype (depth - 1))
    let returnType :=
      match rt with
      | some t => simplifyType (some t) (depth - 1)
      | none =>
        if mmods.any (fun m => m == Modifier.asyncMod) then "Promise<unknown>" else "void"
    let staticMod := if mmods.any (fun m => m == Modifier.staticMod) then "static " else ""
    some (staticMod ++ propNameText mn ++ "(" ++ params ++ "): " ++ returnType)
  | .constructorDeclaration ps _ =>
    some ("constructor(" ++ String.intercalate ", "
      (ps.map fun p => p.pname ++ ": " ++ simplifyType p.ptype (depth - 1)) ++ ")")
  | _ => none

/-- Embeds `extractClassSignature` (anonymous classes are skipped). -/
def extractClassSignature (node : Node) (anc : List Node) (filePath : String)
    (depth : Int) : Option TypeSignature :=
  match node with
  | .classDeclaration _ cname typeParams heritage members =>
    match cname with
    | none => none
    | some name =>
      let isExp := isNodeExported node anc
      let generics := renderGenerics typeParams depth
      let extendsClause := heritage.foldl
        (fun acc h => if h.isExtends then " extends " ++ String.intercalate ", " h.typeTexts else acc) ""
      let implementsClause := heritage.foldl
        (fun acc h => if !h.isExtends then " implements " ++ String.intercalate ", " h.typeTexts else acc) ""
      let memberStrs := members.filterMap (classMemberRender depth)
      let fullSignature :=
        "class " ++ name ++ generics ++ extendsClause ++ implementsClause ++ " \x7b " ++
          String.intercalate "; " memberStrs ++ " \x7d"
      some { name, kind := "class", fullSignature, filePath, isExported := isExp }
  | _ => none

/-- The per-statement summary used by the namespace / ambient-module
extractors. -/
def nsChildSummary (stmt : Node) : Option String :=
  match stmt with
  | .interfaceDeclaration _ n _ _ _ => some ("interface " ++ n)
  | .typeAliasDeclaration _ n _ _ => some ("type " ++ n)
  | .enumDeclaration _ n _ => some ("enum " ++ n)
  | .classDeclaration _ (some n) _ _ _ => some ("class " ++ n)
  | .functionDeclaration _ (some n) _ _ _ => some ("function " ++ n)
  | .variableStatement _ (.variableDeclarationList (.variableDeclaration (.identifier n) _ :: _)) =>
    some ("const " ++ n)
  | _ => none

/-- Embeds `extractNamespaceSignature`. -/
def extractNamespaceSignature (node : Node) (anc : List Node) (filePath : String) :
    Option TypeSignature :=
  match node with
  | .moduleDeclaration _ mdName body =>
    let name := modNameText mdName
    let isExp := isNodeExported node anc
    let contents :=
      match body with
      | some (.moduleBlock stmts) => stmts.filterMap nsChildSummary
      | _ => []
    let contentsStr := match contents with | [] => "..." | _ => String.intercalate "; " contents
    some { name, kind := "namespace",
           fullSignature := "namespace " ++ name ++ " \x7b " ++ contentsStr ++ " \x7d",
           filePath, isExported := isExp }
  | _ => none

/-- Embeds `extractModuleSignature`. -/
def extractModuleSignature (node : Node) (anc : List Node) (filePath : String) :
    Option TypeSignature :=
  match node with
  | .moduleDeclaration _ mdName body =>
    let name := modNameText mdName
    let isExp := isNodeExported node anc
    let contents :=
      match body with
      | some (.moduleBlock stmts) => stmts.filterMap nsChildSummary
      | _ => []
    let contentsStr := match contents with | [] => "..." | _ => String.intercalate "; " contents
    some { name, kind := "module",
           fullSignature := "declare module " ++ name ++ " \x7b " ++ contentsStr ++ " \x7d",
           filePath, isExported := isExp }
  | _ => none

/-- The mutable locals of the chain walk in `extractTrpcProcedureSignature`. -/
structure ChainState where
  finalProcedureType : Option String
  hasInput : Bool
  inputSchemaName : Option String
  inputSchemaText : Option String

/-- Embeds the `while (currentExpr)` chain walk of
`extractTrpcProcedureSignature`: from the outermost call inward, each
call-on-property-access step overwrites the recorded kind and the input
metadata; the walk stops at the first step that is not such a call. -/
def chainWalk : Node → ChainState → ChainState
  | .callExpression (.propertyAccessExpression base methodName) args, st =>
    let st :=
      if methodName == "query" then { st with finalProcedureType := some "query" }
      else if methodName == "mutation" then { st with finalProcedureType := some "mutation" }
      else st
    let st :=
      if methodName == "input" then
        let st := { st with hasInput := true }
        match args with
        | .identifier idText :: _ => { st with inputSchemaName := some idText }
        | a :: _ => { st with inputSchemaText := some (collapseWS (getTextE a)) }
        | [] => st
      else st
    chainWalk base st
  | _, st => st

/-- Embeds `extractTrpcProcedureSignature(node, filePath, routerName,
sourceFile)`. -/
def extractTrpcProcedureSignature (node : Node) (filePath routerName : String) :
    Option FunctionSignature :=
  match node with
  | .propertyAssignment (.idName procedureName) initz =>
    let st := chainWalk initz ⟨none, false, none, none⟩
    match st.finalProcedureType with
    | none => none
    | some kind =>
      let inputPart :=
        if st.hasInput then
          if optTruthy st.inputSchemaName then
            " (input: " ++ st.inputSchemaName.getD "" ++ ")"
          else if optTruthy st.inputSchemaText then
            " (input: " ++ st.inputSchemaText.getD "" ++ ")"
          else " (input)"
        else ""
      some { name := procedureName, parameters := [], returnType := "unknown",
             fullSignature := routerName ++ "." ++ procedureName ++ ": " ++ kind ++ inputPart,
             filePath, isExported := false, parentName := some routerName,
             isTrpcProcedure := true, procedureType := some kind,
             hasInput := st.hasInput, inputSchemaName := st.inputSchemaName,
             inputSchemaText := st.inputSchemaText }
  | _ => none

/-- The parameters of a function-like node. -/
def fnParams : Node → List Param
  | .functionDeclaration _ _ ps _ _ => ps
  | .functionExpression _ ps _ _ => ps
  | .arrowFunction ps _ _ => ps
  | .methodDeclaration _ _ ps _ _ => ps
  | _ => []

/-- The return-type annotation of a function-like node. -/
def fnRetType : Node → Option TypeNode
  | .functionDeclaration _ _ _ rt _ => rt
  | .functionExpression _ _ rt _ => rt
  | .arrowFunction _ rt _ => rt
  | .methodDeclaration _ _ _ rt _ => rt
  | _ => none

/-- The body of a function-like node, when present. -/
def fnBodyOpt : Node → Option Node
  | .functionDeclaration _ _ _ _ b => b
  | .functionExpression _ _ _ b => some b
  | .arrowFunction _ _ b => some b
  | .methodDeclaration _ _ _ _ b => b
  | _ => none

/-- Embeds `ts.isArrowFunction(node)`. -/
def isArrowNode : Node → Bool
  | .arrowFunction _ _ _ => true
  | _ => false

/-- Embeds `ts.isBlock(node.body)` for a function-like node. -/
def isBlockBody (node : Node) : Bool :=
  match fnBodyOpt node with
  | some (.block _) => true
  | _ => false

/-- Whether an expression is a markup element / fragment, optionally inside
one level of parentheses (the test applied to `return` payloads and to
concise arrow bodies). -/
def isJsxReturnExpr : Node → Bool
  | .jsxElement _ => true
  | .jsxSelfClosing => true
  | .jsxFragment _ => true
  | .parenExpr inner =>
    (match inner with
     | .jsxElement _ => true
     | .jsxSelfClosing => true
     | .jsxFragment _ => true
     | _ => false)
  | _ => false

/-- Embeds `inferReactComponentReturnType(node, sourceFile)`:
name-convention test first (uppercase first letter with a distinct
lowercase form), then the structural test on top-level `return`s of a
block body, or on the concise arrow body itself.  The statement scan does
not recurse into nested bodies (the recursive call is commented out in the
source). -/
def inferReactComponentReturnType (node : Node) (anc : List Node) : Bool :=
  let funcName :=
    match node with
    | .functionDeclaration _ (some n) _ _ _ => n
    | _ =>
      match anc with
      | .variableDeclaration (.identifier vn) _ :: _ => vn
      | _ => ""
  let nameHit :=
    match funcName.toList with
    | [] => false
    | c :: _ => c.toUpper == c && c.toLower != c
  if nameHit then true
  else
    match fnBodyOpt node with
    | some (.block stmts) =>
      stmts.any fun stmt =>
        match stmt with
        | .returnStatement (some e) => isJsxReturnExpr e
        | _ => false
    | some b => if isArrowNode node then isJsxReturnExpr b else false
    | none => false

/-- The shared tail of `extractFunctionSignature`: parameters, return type,
and signature assembly, once name / export / parent are resolved. -/
def finishFunctionSignature (node : Node) (anc : List Node) (filePath : String)
    (functionName : String) (isExp : Bool) (parentName : Option String) :
    FunctionSignature :=
  let parameters := (fnParams node).map fun p =>
    let paramName := if p.pname == "" then "_" else p.pname
    let paramType := match p.ptype with | some t => typeText t | none => "any"
    (paramName, cleanNL paramType)
  let returnType :=
    match fnRetType node with
    | some t => typeText t
    | none =>
      if isArrowNode node && !isBlockBody node then "inferred"
      else if strEndsWith filePath ".tsx" || strEndsWith filePath ".jsx" then
        (if inferReactComponentReturnType node anc then "React.JSX.Element" else "void")
      else "void"
  let paramString := String.intercalate ", " (parameters.map fun p => p.1 ++ ": " ++ p.2)
  let fullName :=
    if optTruthy parentName then parentName.getD "" ++ "." ++ functionName else functionName
  { name := functionName, parameters, returnType,
    fullSignature := fullName ++ "(" ++ paramString ++ "): " ++ returnType,
    filePath, isExported := isExp, parentName, isTrpcProcedure := false,
    procedureType := none, hasInput := false, inputSchemaName := none,
    inputSchemaText := none }

/-- Embeds `extractFunctionSignature(node, filePath, sourceFile,
currentRouterName)`; the case order mirrors the source's if/else chain. -/
def extractFunctionSignature (node : Node) (anc : List Node) (filePath : String)
    (currentRouterName : Option String) : Option FunctionSignature :=
  match node with
  | .functionDeclaration _ (some nm) _ _ _ =>
    some (finishFunctionSignature node anc filePath nm (isNodeExported node anc) currentRouterName)
  | .methodDeclaration _ (.idName nm) _ _ _ =>
    some (finishFunctionSignature node anc filePath nm false
      (orElseStr (findParentName node anc) currentRouterName))
  | .functionExpression (some nm) _ _ _ =>
    some (finishFunctionSignature node anc filePath nm false
      (orElseStr (findParentName node anc) currentRouterName))
  | _ =>
    match anc with
    | vd@(.variableDeclaration (.identifier vn) _) :: ancRest =>
      some (finishFunctionSignature node anc filePath vn (isNodeExported vd ancRest)
        (orElseStr (findParentName node anc) currentRouterName))
    | .propertyAssignment (.idName pn) initz :: ancRest =>
      if nodeBeq initz node then
        let isExp :=
          match ancRest with
          | _ :: ap@(.variableDeclaration _ _) :: rest2 => isNodeExported ap rest2
          | _ => false
        some (finishFunctionSignature node anc filePath pn isExp
          (orElseStr (findParentName node anc) currentRouterName))
      else none
    | _ => none

/-- Embeds `ts.isFunctionDeclaration || ts.isFunctionExpression ||
ts.isArrowFunction || ts.isMethodDeclaration`. -/
def isFnLikeNode : Node → Bool
  | .functionDeclaration _ _ _ _ _ => true
  | .functionExpression _ _ _ _ => true
  | .arrowFunction _ _ _ => true
  | .methodDeclaration _ _ _ _ _ => true
  | _ => false

/-- Embeds `ts.isMethodDeclaration(node)`. -/
def isMethodNode : Node → Bool
  | .methodDeclaration _ _ _ _ _ => true
  | _ => false

/-- The traversal state of `parseFile`: the two output lists plus the
ephemeral `currentRouterName`. -/
structure PState where
  functions : List FunctionSignature
  types : List TypeSignature
  router : Option String

/-- Appends an optional type signature (the `if (typeSignature)
types.push(...)` pattern). -/
def pushType (ot : Option TypeSignature) (st : PState) : PState :=
  match ot with
  | some t => { st with types := st.types ++ [t] }
  | none => st

/-- Router-definition detection of `visit` (source lines 472-483): a
variable statement whose first declaration is initialized by a call whose
callee text is `createTRPCRouter` stores the declared name as the active
router. -/
def emitRouterDetect (node : Node) (st : PState) : PState :=
  match node with
  | .variableStatement _ (.variableDeclarationList
      (.variableDeclaration dn (some (.callExpression callee _)) :: _)) =>
    if getTextE callee == "createTRPCRouter" then
      match dn with
      | .identifier nm => { st with router := some nm }
      | _ => st
    else st
  | _ => st

/-- Type-declaration extraction of `visit` (source lines 485-521). -/
def emitTypes (filePath : String) (typeDepth : Int) (node : Node) (anc : List Node)
    (st : PState) : PState :=
  match node with
  | .interfaceDeclaration _ _ _ _ _ =>
    pushType (extractInterfaceSignature node anc filePath typeDepth) st
  | .typeAliasDeclaration _ _ _ _ =>
    pushType (extractTypeAliasSignature node anc filePath typeDepth) st
  | .enumDeclaration _ _ _ => pushType (extractEnumSignature node anc filePath) st
  | .classDeclaration _ _ _ _ _ =>
    pushType (extractClassSignature node anc filePath typeDepth) st
  | .moduleDeclaration _ (.mid _) _ =>
    pushType (extractNamespaceSignature node anc filePath) st
  | .moduleDeclaration _ (.mstr _) _ =>
    pushType (extractModuleSignature node anc filePath) st
  | _ => st

/-- Function/method extraction of `visit` (source lines 523-541): class
methods and chain members are skipped. -/
def emitFunction (filePath : String) (node : Node) (anc : List Node) (st : PState) :
    PState :=
  if isFnLikeNode node then
    if isMethodNode node && isInsideClassDeclaration anc then st
    else if !isInsideTrpcProcedureChain node anc then
      match extractFunctionSignature node anc filePath st.router with
      | some s => { st with functions := st.functions ++ [s] }
      | none => st
    else st
  else st

/-- Router-procedure extraction of `visit` (source lines 543-558): on the
object-literal argument of an active `createTRPCRouter` call, extract
every identifier-named property assignment, then reset the router. -/
def emitProcedures (filePath : String) (node : Node) (anc : List Node) (st : PState) :
    PState :=
  match node, anc with
  | .objectLiteral props, .callExpression callee _ :: _ =>
    if optTruthy st.router && getTextE callee == "createTRPCRouter" then
      let newSigs := props.filterMap fun p =>
        match p with
        | .propertyAssignment (.idName _) _ =>
          extractTrpcProcedureSignature p filePath (st.router.getD "")
        | _ => none
      { st with functions := st.functions ++ newSigs, router := none }
    else st
  | _, _ => st

/-- The per-node body of `visit` (everything it does at one node before
recursing into the children), in source order. -/
def emitAt (filePath : String) (typeDepth : Int) (node : Node) (anc : List Node)
    (st : PState) : PState :=
  emitProcedures filePath node anc
    (emitFunction filePath node anc
      (emitTypes filePath typeDepth node anc
        (emitRouterDetect node st)))

mutual

/-- Embeds the recursive `visit` of `parseFile`: process the node, then
recurse into its children in source order, threading the state (the two
output arrays and the mutable `currentRouterName`). -/
def visit (fp : String) (td : Int) : Node → List Node → PState → PState
  | n@(.sourceFile stmts), anc, st => visitList fp td stmts (n :: anc) (emitAt fp td n anc st)
  | n@(.variableStatement _ dl), anc, st => visit fp td dl (n :: anc) (emitAt fp td n anc st)
  | n@(.variableDeclarationList ds), anc, st =>
    visitList fp td ds (n :: anc) (emitAt fp td n anc st)
  | n@(.variableDeclaration nameN oin), anc, st =>
    visitOpt fp td oin (n :: anc) (visit fp td nameN (n :: anc) (emitAt fp td n anc st))
  | n@(.functionDeclaration _ _ _ _ ob), anc, st =>
    visitOpt fp td ob (n :: anc) (emitAt fp td n anc st)
  | n@(.functionExpression _ _ _ b), anc, st => visit fp td b (n :: anc) (emitAt fp td n anc st)
  | n@(.arrowFunction _ _ b), anc, st => visit fp td b (n :: anc) (emitAt fp td n anc st)
  | n@(.methodDeclaration _ _ _ _ ob), anc, st =>
    visitOpt fp td ob (n :: anc) (emitAt fp td n anc st)
  | n@(.constructorDeclaration _ ob), anc, st =>
    visitOpt fp td ob (n :: anc) (emitAt fp td n anc st)
  | n@(.classDeclaration _ _ _ _ mems), anc, st =>
    visitList fp td mems (n :: anc) (emitAt fp td n anc st)
  | n@(.moduleDeclaration _ _ ob), anc, st =>
    visitOpt fp td ob (n :: anc) (emitAt fp td n anc st)
  | n@(.moduleBlock stmts), anc, st => visitList fp td stmts (n :: anc) (emitAt fp td n anc st)
  | n@(.callExpression callee args), anc, st =>
    visitList fp td args (n :: anc) (visit fp td callee (n :: anc) (emitAt fp td n anc st))
  | n@(.propertyAccessExpression obj _), anc, st =>
    visit fp td obj (n :: anc) (emitAt fp td n anc st)
  | n@(.objectLiteral props), anc, st => visitList fp td props (n :: anc) (emitAt fp td n anc st)
  | n@(.propertyAssignment _ initz), anc, st =>
    visit fp td initz (n :: anc) (emitAt fp td n anc st)
  | n@(.parenExpr inner), anc, st => visit fp td inner (n :: anc) (emitAt fp td n anc st)
  | n@(.jsxElement cs), anc, st => visitList fp td cs (n :: anc) (emitAt fp td n anc st)
  | n@(.jsxFragment cs), anc, st => visitList fp td cs (n :: anc) (emitAt fp td n anc st)
  | n@(.returnStatement oe), anc, st => visitOpt fp td oe (n :: anc) (emitAt fp td n anc st)
  | n@(.block stmts), anc, st => visitList fp td stmts (n :: anc) (emitAt fp td n anc st)
  | n@(.exportDeclaration specs), anc, st =>
    visitList fp td specs (n :: anc) (emitAt fp td n anc st)
  | n@(.expressionStatement e), anc, st => visit fp td e (n :: anc) (emitAt fp td n anc st)
  | n, anc, st => emitAt fp td n anc st

/-- Runs `visit` on an optional child. -/
def visitOpt (fp : String) (td : Int) : Option Node → List Node → PState → PState
  | none, _, st => st
  | some c, anc, st => visit fp td c anc st

/-- Runs `visit` on each child of a list in order. -/
def visitList (fp : String) (td : Int) : List Node → List Node → PState → PState
  | [], _, st => st
  | c :: cs, anc, st => visitList fp td cs anc (visit fp td c anc st)

end

/-- The default type-render depth of the source. -/
def DEFAULT_TYPE_DEPTH : Int := 2

/-- Embeds `parseFile`: the engine's entry point on one file's syntax tree
(file reading and `ts.createSourceFile` are the external parser, out of
scope per the spec). -/
def parseFile (ast : Node) (filePath : String) (typeDepth : Int) : ParseResult :=
  let st := visit filePath typeDepth ast [] ⟨[], [], none⟩
  { functions := st.functions, types := st.types }

mutual

/-- The pre-order list of (node, ancestor-chain) pairs visited by the tree
walker, in visitation order.  This is the specification-side description of
the traversal order ("order = pre-order visitation order"), used to state
that `visit` emits along exactly this sequence. -/
def preorderWA : Node → List Node → List (Node × List Node)
  | n@(.sourceFile stmts), anc => (n, anc) :: preorderList stmts (n :: anc)
  | n@(.variableStatement _ dl), anc => (n, anc) :: preorderWA dl (n :: anc)
  | n@(.variableDeclarationList ds), anc => (n, anc) :: preorderList ds (n :: anc)
  | n@(.variableDeclaration nameN oin), anc =>
    (n, anc) :: (preorderWA nameN (n :: anc) ++ preorderOpt oin (n :: anc))
  | n@(.functionDeclaration _ _ _ _ ob), anc => (n, anc) :: preorderOpt ob (n :: anc)
  | n@(.functionExpression _ _ _ b), anc => (n, anc) :: preorderWA b (n :: anc)
  | n@(.arrowFunction _ _ b), anc => (n, anc) :: preorderWA b (n :: anc)
  | n@(.methodDeclaration _ _ _ _ ob), anc => (n, anc) :: preorderOpt ob (n :: anc)
  | n@(.constructorDeclaration _ ob), anc => (n, anc) :: preorderOpt ob (n :: anc)
  | n@(.classDeclaration _ _ _ _ mems), anc => (n, anc) :: preorderList mems (n :: anc)
  | n@(.moduleDeclaration _ _ ob), anc => (n, anc) :: preorderOpt ob (n :: anc)
  | n@(.moduleBlock stmts), anc => (n, anc) :: preorderList stmts (n :: anc)
  | n@(.callExpression callee args), anc =>
    (n, anc) :: (preorderWA callee (n :: anc) ++ preorderList args (n :: anc))
  | n@(.propertyAccessExpression obj _), anc => (n, anc) :: preorderWA obj (n :: anc)
  | n@(.objectLiteral props), anc => (n, anc) :: preorderList props (n :: anc)
  | n@(.propertyAssignment _ initz), anc => (n, anc) :: preorderWA initz (n :: anc)
  | n@(.parenExpr inner), anc => (n, anc) :: preorderWA inner (n :: anc)
  | n@(.jsxElement cs), anc => (n, anc) :: preorderList cs (n :: anc)
  | n@(.jsxFragment cs), anc => (n, anc) :: preorderList cs (n :: anc)
  | n@(.returnStatement oe), anc => (n, anc) :: preorderOpt oe (n :: anc)
  | n@(.block stmts), anc => (n, anc) :: preorderList stmts (n :: anc)
  | n@(.exportDeclaration specs), anc => (n, anc) :: preorderList specs (n :: anc)
  | n@(.expressionStatement e), anc => (n, anc) :: preorderWA e (n :: anc)
  | n, anc => [(n, anc)]

/-- Pre-order pairs of an optional child. -/
def preorderOpt : Option Node → List Node → List (Node × List Node)
  | none, _ => []
  | some c, anc => preorderWA c anc

/-- Pre-order pairs of a child list. -/
def preorderList : List Node → List Node → List (Node × List Node)
  | [], _ => []
  | c :: cs, anc => preorderWA c anc ++ preorderList cs anc

end

/-- Folds the per-node emission step over a list of (node, ancestors)
pairs: one sequential pass, as the spec describes the walker. -/
def emitFold (filePath : String) (typeDepth : Int) (l : List (Node × List Node))
    (st : PState) : PState :=
  l.foldl (fun s p => emitAt filePath typeDepth p.1 p.2 s) st

/-- The all-default `FunctionSignature` record (used only to read elements
out of computed lists in closed statements). -/
def emptyFunctionSignature : FunctionSignature :=
  { name := "", parameters := [], returnType := "", fullSignature := "",
    filePath := "", isExported := false, parentName := none,
    isTrpcProcedure := false, procedureType := none, hasInput := false,
    inputSchemaName := none, inputSchemaText := none }

/-- The chain `base.input(Schema).mutation(fn).query(fn2)` of the spec's
"chain last-kind-wins" example, read outermost-first. -/
def chainC1 : Node :=
  .callExpression
    (.propertyAccessExpression
      (.callExpression
        (.propertyAccessExpression
          (.callExpression (.propertyAccessExpression (.identifier "base") "input")
            [.identifier "Schema"])
          "mutation")
        [.identifier "fn"])
      "query")
    [.identifier "fn2"]

/-- A chain `b.input(sc).use(mw)`: it contains no query/mutation step. -/
def chainUseOf (b sc mw : String) : Node :=
  .callExpression
    (.propertyAccessExpression
      (.callExpression (.propertyAccessExpression (.identifier b) "input")
        [.identifier sc])
      "use")
    [.identifier mw]

/-- The chain `publicProcedure.input(Schema).query(() => {})`. -/
def chainQuery : Node :=
  .callExpression
    (.propertyAccessExpression
      (.callExpression (.propertyAccessExpression (.identifier "publicProcedure") "input")
        [.identifier "Schema"])
      "query")
    [.arrowFunction [] none (.block [])]

/-- A router file whose object literal holds one kindless (`.use`) entry
and one `.query` entry. -/
def astRouterMixed : Node :=
  .sourceFile [
    .variableStatement [.exportMod] (.variableDeclarationList [
      .variableDeclaration (.identifier "appRouter")
        (some (.callExpression (.identifier "createTRPCRouter") [
          .objectLiteral [
            .propertyAssignment (.idName "legacy") (chainUseOf "base" "Schema" "middleware"),
            .propertyAssignment (.idName "getThing") chainQuery]]))])]

/-- A view-template file `const <nm> = () => <div/>` (concise arrow body
is a self-closing markup element). -/
def astConciseArrowFile (nm : String) : Node :=
  .sourceFile [
    .variableStatement [] (.variableDeclarationList [
      .variableDeclaration (.identifier nm)
        (some (.arrowFunction [] none .jsxSelfClosing))])]

/-- A view-template file `const <nm> = () => { return <div/> }` (block
body with a top-level markup return). -/
def astBlockArrowFile (nm : String) : Node :=
  .sourceFile [
    .variableStatement [] (.variableDeclarationList [
      .variableDeclaration (.identifier nm)
        (some (.arrowFunction [] none (.block [.returnStatement (some .jsxSelfClosing)])))])]

/-- A file holding exactly one named class with two empty methods. -/
def astClassFile (cnm m1 m2 : String) : Node :=
  .sourceFile [
    .classDeclaration [] (some cnm) [] [] [
      .methodDeclaration [] (.idName m1) [] none (some (.block [])),
      .methodDeclaration [] (.idName m2) [] none (some (.block []))]]

/-- A file with `export const <f> = () => {}` and `const <g> = () => {}`. -/
def astExportFile (f g : String) : Node :=
  .sourceFile [
    .variableStatement [.exportMod] (.variableDeclarationList [
      .variableDeclaration (.identifier f) (some (.arrowFunction [] none (.block [])))]),
    .variableStatement [] (.variableDeclarationList [
      .variableDeclaration (.identifier g) (some (.arrowFunction [] none (.block [])))])]

/-- The declaration `function f()` with an empty body and no export
modifier. -/
def fdeclF : Node := .functionDeclaration [] (some "f") [] none (some (.block []))

/-- A file `function f() {}` followed by `export { f }`. -/
def astReexpFile : Node :=
  .sourceFile [fdeclF, .exportDeclaration [.exportSpecifier "f"]]

/-- An 81-character raw text whose doubled space collapses to 80
characters. -/
def rawC7 : String := String.mk (List.replicate 79 'a' ++ [' ', ' '])

/-- The property entry used to instantiate the procedure-shape theorem. -/
def propC10 : Node :=
  .propertyAssignment (.idName "setThing")
    (.callExpression
      (.propertyAccessExpression (.identifier "publicProcedure") "mutation")
      [.arrowFunction [] none (.block [])])

/-- The tree walker equals one stateful pass over the pre-order list of
(node, ancestors) pairs: emissions happen exactly in pre-order visitation
order. -/
theorem visit_preorder (fp : String) (td : Int) :
    ∀ (n : Node) (anc : List Node) (st : PState),
      visit fp td n anc st = emitFold fp td (preorderWA n anc) st := by
  apply visit.induct fp td
    (fun n anc st => visit fp td n anc st = emitFold fp td (preorderWA n anc) st)
    (fun o anc st => visitOpt fp td o anc st = emitFold fp td (preorderOpt o anc) st)
    (fun l anc st => visitList fp td l anc st = emitFold fp td (preorderList l anc) st) <;>
  intros <;>
  simp only [visit, visitOpt, visitList, preorderWA, preorderOpt, preorderList, emitFold,
    List.foldl_cons, List.foldl_nil, List.foldl_append] <;>
  simp_all only [emitFold]

/-- Every signature built by `extractFunctionSignature` is marked as not a
procedure (`isTrpcProcedure: false` in the source). -/
theorem extractFunctionSignature_not_trpc (n : Node) (anc : List Node) (fp : String)
    (r : Option String) (s : FunctionSignature)
    (h : extractFunctionSignature n anc fp r = some s) : s.isTrpcProcedure = false := by
  unfold extractFunctionSignature at h
  repeat' split at h
  all_goals first
    | exact Option.noConfusion h
    | (injection h with h; rw [← h]; rfl)

/-- The chain walk only ever stores `"query"` or `"mutation"` as the
recorded kind (or leaves it unset). -/
theorem chainWalk_kind :
    ∀ (n : Node) (st : ChainState),
      (st.finalProcedureType = none ∨ st.finalProcedureType = some "query" ∨
        st.finalProcedureType = some "mutation") →
      ((chainWalk n st).finalProcedureType = none ∨
        (chainWalk n st).finalProcedureType = some "query" ∨
        (chainWalk n st).finalProcedureType = some "mutation") := by
  apply chainWalk.induct
    (fun n st =>
      (st.finalProcedureType = none ∨ st.finalProcedureType = some "query" ∨
        st.finalProcedureType = some "mutation") →
      ((chainWalk n st).finalProcedureType = none ∨
        (chainWalk n st).finalProcedureType = some "query" ∨
        (chainWalk n st).finalProcedureType = some "mutation"))
  · intro base methodName args st st1 st2 ih h
    have h1 : st1.finalProcedureType = some "query" ∨ st1.finalProcedureType = some "mutation" ∨
        st1.finalProcedureType = st.finalProcedureType := by
      unfold st1
      split
      · exact Or.inl rfl
      · split
        · exact Or.inr (Or.inl rfl)
        · exact Or.inr (Or.inr rfl)
    have h2 : st2.finalProcedureType = st1.finalProcedureType := by
      unfold st2
      split
      · split <;> rfl
      · rfl
    have hpre : st2.finalProcedureType = none ∨ st2.finalProcedureType = some "query" ∨
        st2.finalProcedureType = some "mutation" := by
      rw [h2]
      rcases h1 with h1 | h1 | h1
      · rw [h1]
        exact Or.inr (Or.inl rfl)
      · rw [h1]
        exact Or.inr (Or.inr rfl)
      · rw [h1]
        exact h
    simp only [chainWalk]
    exact ih hpre
  · intro n st h1 h
    rw [chainWalk.eq_def]
    split
    · rename_i base mn args2
      exact absurd rfl (h1 base mn args2)
    · exact h

/-- Every signature the procedure extractor returns carries kind
`"query"` or `"mutation"` (the kindless case returns `null`). -/
theorem extractTrpc_kind_query_or_mutation (p : Node) (fp r : String) (s : FunctionSignature)
    (h : extractTrpcProcedureSignature p fp r = some s) :
    s.procedureType = some "query" ∨ s.procedureType = some "mutation" := by
  simp only [extractTrpcProcedureSignature] at h
  split at h
  · rename_i procedureName initz
    have hck := chainWalk_kind initz ⟨none, false, none, none⟩ (Or.inl rfl)
    split at h
    · exact Option.noConfusion h
    · rename_i kind heq
      injection h with h
      rw [← h]
      rcases hck with h0 | hq | hm
      · rw [heq] at h0
        exact Option.noConfusion h0
      · rw [heq] at hq
        injection hq with hq
        left
        show some kind = some "query"
        rw [hq]
      · rw [heq] at hm
        injection hm with hm
        right
        show some kind = some "mutation"
        rw [hm]
  · exact Option.noConfusion h

/-- Router detection does not touch the functions list. -/
theorem emitRouterDetect_functions (n : Node) (st : PState) :
    (emitRouterDetect n st).functions = st.functions := by
  unfold emitRouterDetect
  repeat' split
  all_goals rfl

/-- Type extraction does not touch the functions list. -/
theorem emitTypes_functions (fp : String) (td : Int) (n : Node) (anc : List Node)
    (st : PState) : (emitTypes fp td n anc st).functions = st.functions := by
  unfold emitTypes pushType
  repeat' split
  all_goals rfl

/-- Function extraction only appends, and only non-procedure records. -/
theorem emitFunction_functions (fp : String) (n : Node) (anc : List Node) (st : PState) :
    ∃ fs, (emitFunction fp n anc st).functions = st.functions ++ fs ∧
      ∀ s ∈ fs, s.isTrpcProcedure = false := by
  unfold emitFunction
  repeat' split
  all_goals try
    exact ⟨[], (List.append_nil st.functions).symm, fun s2 hs2 => absurd hs2 (List.not_mem_nil _)⟩
  rename_i s h
  exact ⟨[s], rfl, fun s2 hs2 => by
    rw [List.mem_singleton] at hs2
    subst hs2
    exact extractFunctionSignature_not_trpc _ _ _ _ _ h⟩

/-- Procedure extraction only appends, and only records with a kind. -/
theorem emitProcedures_functions (fp : String) (n : Node) (anc : List Node) (st : PState) :
    ∃ fs, (emitProcedures fp n anc st).functions = st.functions ++ fs ∧
      ∀ s ∈ fs, s.procedureType = some "query" ∨ s.procedureType = some "mutation" := by
  unfold emitProcedures
  repeat' split
  all_goals try
    exact ⟨[], (List.append_nil st.functions).symm, fun s2 hs2 => absurd hs2 (List.not_mem_nil _)⟩
  refine ⟨_, rfl, ?_⟩
  intro s hs
  rw [List.mem_filterMap] at hs
  obtain ⟨p, _, hp⟩ := hs
  revert hp
  split
  · intro hp
    exact extractTrpc_kind_query_or_mutation _ _ _ _ hp
  · intro hp
    exact Option.noConfusion hp

/-- One node's emissions only append function records, each of which
satisfies the procedure-kind invariant. -/
theorem emitAt_functions (fp : String) (td : Int) (n : Node) (anc : List Node) (st : PState) :
    ∃ fs, (emitAt fp td n anc st).functions = st.functions ++ fs ∧
      ∀ s ∈ fs, s.isTrpcProcedure = true →
        s.procedureType = some "query" ∨ s.procedureType = some "mutation" := by
  unfold emitAt
  obtain ⟨fs1, h1, hg1⟩ :=
    emitFunction_functions fp n anc (emitTypes fp td n anc (emitRouterDetect n st))
  obtain ⟨fs2, h2, hg2⟩ :=
    emitProcedures_functions fp n anc
      (emitFunction fp n anc (emitTypes fp td n anc (emitRouterDetect n st)))
  refine ⟨fs1 ++ fs2, ?_, ?_⟩
  · rw [h2, h1, emitTypes_functions, emitRouterDetect_functions, List.append_assoc]
  · intro s hs htr
    rcases List.mem_append.mp hs with hmem | hmem
    · exact absurd htr (by rw [hg1 s hmem]; simp)
    · exact hg2 s hmem

/-- A full emission pass only appends function records satisfying the
procedure-kind invariant. -/
theorem emitFold_functions (fp : String) (td : Int) :
    ∀ (l : List (Node × List Node)) (st : PState),
      ∃ fs, (emitFold fp td l st).functions = st.functions ++ fs ∧
        ∀ s ∈ fs, s.isTrpcProcedure = true →
          s.procedureType = some "query" ∨ s.procedureType = some "mutation" := by
  intro l
  induction l with
  | nil =>
    exact fun st =>
      ⟨[], (List.append_nil st.functions).symm, fun s hs => absurd hs (List.not_mem_nil _)⟩
  | cons p rest ih =>
    intro st
    obtain ⟨fs1, h1, hg1⟩ := emitAt_functions fp td p.1 p.2 st
    obtain ⟨fs2, h2, hg2⟩ := ih (emitAt fp td p.1 p.2 st)
    refine ⟨fs1 ++ fs2, ?_, ?_⟩
    · show (emitFold fp td rest (emitAt fp td p.1 p.2 st)).functions = _
      rw [h2, h1, List.append_assoc]
    · intro s hs
      rcases List.mem_append.mp hs with hmem | hmem
      · exact hg1 s hmem
      · exact hg2 s hmem

/-- Length of a JavaScript `substring(0, n)` model. -/
theorem strTake_length (s : String) (n : Nat) : (strTake s n).length = min n s.length := by
  unfold strTake
  rw [String.length_mk, List.length_take]
  rfl

/-- Unfolding of the type renderer on a fallback-kind node. -/
theorem simplifyType_otherType_eq (raw : String) (d : Int) :
    simplifyType (some (.otherType raw)) d =
      if d < 0 then "..."
      else if (collapseWS raw).length > 60 then strTake (collapseWS raw) 60 ++ "..."
      else collapseWS raw := rfl

/-- Unfolding of the type renderer on a mapped-type node. -/
theorem simplifyType_mappedType_eq (raw : String) (d : Int) :
    simplifyType (some (.mappedType raw)) d =
      if d < 0 then "..."
      else if d == 0 then "\x7b [K in ...]: ... \x7d"
      else strTake (collapseWS raw) 80 ++ (if raw.length > 80 then "..." else "") := rfl

/-- With a negative depth budget the renderer body yields the ellipsis for
every node kind. -/
theorem simplifyTCore_neg (t : TypeNode) (d : Int) (hd : d < 0) :
    simplifyTCore t d = "..." := by
  cases t
  case typeRef n a => cases a <;> simp [simplifyTCore, hd]
  all_goals simp [simplifyTCore, hd]

/-- Claim C2: every `FunctionSignature` in the parse output with
`isTrpcProcedure = true` has its procedure kind set to `"query"` or
`"mutation"`; and a router entry whose chain has no `.query`/`.mutation`
step (`b.input(sc).use(mw)`) produces no signature at all. -/
theorem c2_procedure_kind_invariant :
    (∀ (ast : Node) (fp : String) (d : Int) (s : FunctionSignature),
      s ∈ (parseFile ast fp d).functions → s.isTrpcProcedure = true →
        s.procedureType = some "query" ∨ s.procedureType = some "mutation") ∧
    (∀ (b sc mw p fp r : String),
      extractTrpcProcedureSignature
        (.propertyAssignment (.idName p) (chainUseOf b sc mw)) fp r = none) := by
  constructor
  · intro ast fp d s hs htr
    have hv := visit_preorder fp d ast [] ⟨[], [], none⟩
    obtain ⟨fs, hfs, hg⟩ := emitFold_functions fp d (preorderWA ast []) ⟨[], [], none⟩
    have hpf : (parseFile ast fp d).functions = fs := by
      show (visit fp d ast [] ⟨[], [], none⟩).functions = fs
      rw [hv, hfs]
      rfl
    rw [hpf] at hs
    exact hg s hs htr
  · intro b sc mw p fp r
    rfl

/-- Witness for C2 at a concrete router file containing a kindless `.use`
entry and a `.query` entry. -/
theorem c2_witness :
    ((parseFile astRouterMixed "r.ts" 2).functions.headD
        emptyFunctionSignature).procedureType = some "query" ∨
    ((parseFile astRouterMixed "r.ts" 2).functions.headD
        emptyFunctionSignature).procedureType = some "mutation" :=
  c2_procedure_kind_invariant.1 astRouterMixed "r.ts" 2
    ((parseFile astRouterMixed "r.ts" 2).functions.headD emptyFunctionSignature)
    (by decide) (by decide)

/-- Claim C10: every signature emitted by the procedure-chain detector has
empty `parameters`, `returnType = "unknown"`, `isExported = false`, and
`parentName` equal to the active router name it was invoked with. -/
theorem c10_procedure_signature_shape :
    ∀ (p : Node) (fp r : String) (s : FunctionSignature),
      extractTrpcProcedureSignature p fp r = some s →
      s.parameters = [] ∧ s.returnType = "unknown" ∧ s.isExported = false ∧
        s.parentName = some r := by
  intro p fp r s h
  simp only [extractTrpcProcedureSignature] at h
  repeat' split at h
  all_goals first
    | exact Option.noConfusion h
    | (injection h with h; rw [← h]; exact ⟨rfl, rfl, rfl, rfl⟩)

/-- Witness for C10 at a concrete `publicProcedure.mutation(fn)` entry. -/
theorem c10_witness :
    ((extractTrpcProcedureSignature propC10 "f.ts" "appRouter").getD
        emptyFunctionSignature).parameters = [] ∧
    ((extractTrpcProcedureSignature propC10 "f.ts" "appRouter").getD
        emptyFunctionSignature).returnType = "unknown" ∧
    ((extractTrpcProcedureSignature propC10 "f.ts" "appRouter").getD
        emptyFunctionSignature).isExported = false ∧
    ((extractTrpcProcedureSignature propC10 "f.ts" "appRouter").getD
        emptyFunctionSignature).parentName = some "appRouter" :=
  c10_procedure_signature_shape propC10 "f.ts" "appRouter"
    ((extractTrpcProcedureSignature propC10 "f.ts" "appRouter").getD emptyFunctionSignature)
    (by decide)

/-- Counterexample to C1: on `base.input(Schema).mutation(fn).query(fn2)`
the detector records kind `mutation`, not `query` — the walk from the
outermost call inward overwrites the kind, so the innermost
query/mutation step wins, contradicting "the outermost call wins". -/
theorem c1_counterexample :
    (extractTrpcProcedureSignature (.propertyAssignment (.idName "getThing") chainC1)
        "r.ts" "appRouter").map FunctionSignature.procedureType = some (some "mutation") ∧
    ¬ ((extractTrpcProcedureSignature (.propertyAssignment (.idName "getThing") chainC1)
        "r.ts" "appRouter").map FunctionSignature.procedureType = some (some "query")) := by
  decide

/-- Claim C1 (amended): for `b.input(Schema).mutation(f).query(g)` the
detector emits a signature whose kind is `mutation` (the innermost
query/mutation call wins, because the outermost-to-innermost walk
overwrites the kind at every step), with `hasInput = true` and
`inputSchemaName = "Schema"`. -/
theorem c1_amended_innermost_kind_wins :
    ∀ (b f g p r fp : String),
      ∃ s, extractTrpcProcedureSignature
          (.propertyAssignment (.idName p)
            (.callExpression (.propertyAccessExpression
              (.callExpression (.propertyAccessExpression
                (.callExpression (.propertyAccessExpression (.identifier b) "input")
                  [.identifier "Schema"]) "mutation") [.identifier f]) "query")
              [.identifier g])) fp r = some s ∧
        s.procedureType = some "mutation" ∧ s.hasInput = true ∧
        s.inputSchemaName = some "Schema" ∧ s.isTrpcProcedure = true := by
  intro b f g p r fp
  exact ⟨_, rfl, rfl, rfl, rfl, rfl⟩

/-- Counterexample to C3: in a `.tsx` file, concise arrows
`const Foo = () => <div/>` and `const foo = () => <div/>` both yield
return type `"inferred"`, not the element sentinel `"React.JSX.Element"`
— the concise-arrow branch fires before the view-template heuristic. -/
theorem c3_counterexample :
    (parseFile (astConciseArrowFile "Foo") "App.tsx" 2).functions.map
        FunctionSignature.returnType = ["inferred"] ∧
    (parseFile (astConciseArrowFile "foo") "App.tsx" 2).functions.map
        FunctionSignature.returnType = ["inferred"] ∧
    "inferred" ≠ "React.JSX.Element" := by
  decide

/-- Claim C3 (amended): in a view-template file a concise arrow with a
markup-element body yields the `"inferred"` placeholder for every name
(the concise-arrow case precedes the component-likeness heuristic); the
element sentinel is produced for block-bodied arrows returning markup,
both for uppercase and lowercase names (the structural test fires
independently of the naming test). -/
theorem c3_amended_concise_arrow_inferred :
    (∀ nm : String, (parseFile (astConciseArrowFile nm) "App.tsx" 2).functions.map
        FunctionSignature.returnType = ["inferred"]) ∧
    (parseFile (astBlockArrowFile "Foo") "App.tsx" 2).functions.map
        FunctionSignature.returnType = ["React.JSX.Element"] ∧
    (parseFile (astBlockArrowFile "foo") "App.tsx" 2).functions.map
        FunctionSignature.returnType = ["React.JSX.Element"] := by
  refine ⟨fun nm => rfl, by decide, by decide⟩

/-- Claim C4: a source file holding a named class with two methods parses
to an empty functions list and exactly one `TypeSignature` of kind
`"class"` named after the class; its `fullSignature` lists both method
signatures. -/
theorem c4_class_methods_single_type_signature :
    (∀ (cnm m1 m2 fp : String),
      (parseFile (astClassFile cnm m1 m2) fp 2).functions = [] ∧
      ∃ ts, (parseFile (astClassFile cnm m1 m2) fp 2).types = [ts] ∧
        ts.kind = "class" ∧ ts.name = cnm) ∧
    (parseFile (astClassFile "Calc" "add" "sub") "c.ts" 2).types.map
        TypeSignature.fullSignature = ["class Calc \x7b add(): void; sub(): void \x7d"] := by
  refine ⟨fun cnm m1 m2 fp => ⟨rfl, ⟨_, rfl, rfl, rfl⟩⟩, by decide⟩

/-- Claim C5: `export const f = () => {}` yields `isExported = true`
and the non-exported sibling `const g = () => {}` yields
`isExported = false`. -/
theorem c5_export_propagation :
    ∀ (f g : String),
      (parseFile (astExportFile f g) "e.ts" 2).functions.map
          (fun s => (s.name, s.isExported)) = [(f, true), (g, false)] := by
  intro f g
  rfl

/-- Claim C6: the type renderer is total (it is a Lean function); an
absent node or negative depth budget yields exactly `"..."`; and on any
uncovered node kind it returns the raw text with whitespace runs
collapsed, truncated to 60 characters with a `"..."` suffix exactly when
the collapsed text is longer than 60, hence never exceeding 63
characters. -/
theorem c6_type_renderer_total_fallback :
    (∀ (o : Option TypeNode) (d : Int), o = none ∨ d < 0 → simplifyType o d = "...") ∧
    (∀ (raw : String) (d : Int), 0 ≤ d →
      simplifyType (some (.otherType raw)) d =
        (if (collapseWS raw).length > 60 then strTake (collapseWS raw) 60 ++ "..."
         else collapseWS raw) ∧
      (simplifyType (some (.otherType raw)) d).length ≤ 63) := by
  constructor
  · rintro o d (rfl | hd)
    · rfl
    · cases o with
      | none => rfl
      | some t =>
        simp only [simplifyType]
        exact simplifyTCore_neg t d hd
  · intro raw d hd
    have hneg : ¬ (d < 0) := by omega
    have heq : simplifyType (some (TypeNode.otherType raw)) d =
        (if (collapseWS raw).length > 60 then strTake (collapseWS raw) 60 ++ "..."
         else collapseWS raw) := by
      rw [simplifyType_otherType_eq, if_neg hneg]
    refine ⟨heq, ?_⟩
    rw [heq]
    by_cases hgt : (collapseWS raw).length > 60
    · rw [if_pos hgt, String.length_append, strTake_length]
      have hmin : min 60 (collapseWS raw).length ≤ 60 := Nat.min_le_left _ _
      have h3 : ("..." : String).length = 3 := rfl
      omega
    · rw [if_neg hgt]
      omega

/-- Witness for C6 at an absent node and at a short fallback text. -/
theorem c6_witness :
    simplifyType none 2 = "..." ∧ simplifyType (some (.otherType "a b")) 0 = "a b" := by
  constructor
  · exact c6_type_renderer_total_fallback.1 none 2 (Or.inl rfl)
  · have h := (c6_type_renderer_total_fallback.2 "a b" 0 (by norm_num)).1
    rw [h]
    decide

/-- Counterexample to C7: an 81-character mapped-type text whose doubled
space collapses to 80 characters is rendered untruncated yet still gets
the `"..."` suffix — the suffix condition tests the raw text length, not
whether the rendering was actually truncated. -/
theorem c7_counterexample :
    simplifyType (some (.mappedType rawC7)) 1 = collapseWS rawC7 ++ "..." ∧
    (collapseWS rawC7).length ≤ 80 ∧
    strEndsWith (simplifyType (some (.mappedType rawC7)) 1) "..." = true := by
  decide

/-- Claim C7 (amended): a mapped type at depth ≥ 1 renders as the
whitespace-collapsed raw text capped at 80 characters, with the `"..."`
suffix appended if and only if the raw (uncollapsed) text is longer than
80 characters. -/
theorem c7_amended_suffix_tracks_raw_length :
    ∀ (raw : String) (d : Int), 1 ≤ d →
      simplifyType (some (.mappedType raw)) d =
        strTake (collapseWS raw) 80 ++ (if raw.length > 80 then "..." else "") := by
  intro raw d hd
  have h0 : ¬ (d < 0) := by omega
  have h1 : d ≠ 0 := by omega
  rw [simplifyType_mappedType_eq, if_neg h0]
  simp [h1]

/-- Witness for C7 (amended) at a short mapped-type text. -/
theorem c7_witness : simplifyType (some (.mappedType "ab")) 1 = "ab" := by
  have h := c7_amended_suffix_tracks_raw_length "ab" 1 (by norm_num)
  rw [h]
  decide

/-- Counterexample to C8: for `function f() {}` followed by
`export { f }`, the export resolver reports the declaration as not
exported — the specifier check looks at the queried node's own parent,
which for the declaration is the source file, never the specifier. -/
theorem c8_counterexample :
    isNodeExported fdeclF [astReexpFile] = false ∧
    (parseFile astReexpFile "x.ts" 2).functions.map
        (fun s => (s.name, s.isExported)) = [("f", false)] := by
  decide

/-- Claim C8 (amended): the export-specifier rule of `isNodeExported`
fires exactly for a node whose immediate parent is a named export
specifier (the identifier inside `export { f }`); the declaration
that the specifier names resolves to `false` when it carries no export
modifier of its own. -/
theorem c8_amended_specifier_parent_only :
    (∀ (n : Node) (en : String) (rest : List Node),
      isNodeExported n (.exportSpecifier en :: rest) = true) ∧
    isNodeExported fdeclF [astReexpFile] = false := by
  constructor
  · intro n en rest
    unfold isNodeExported
    split
    · rfl
    · split
      · rfl
      · split
        · rfl
        · rename_i hcontra
          exact absurd rfl hcontra
  · decide

/-- Claim C9: parsing is deterministic — equal source tree, file path and
type depth give `ParseResult`s with identical `fullSignature` lists in
identical order — and both output lists arise from a single stateful pass
over the pre-order visitation sequence of the syntax tree. -/
theorem c9_parse_deterministic_preorder :
    (∀ (a1 a2 : Node) (fp1 fp2 : String) (d1 d2 : Int),
      a1 = a2 → fp1 = fp2 → d1 = d2 →
      (parseFile a1 fp1 d1).functions.map FunctionSignature.fullSignature =
        (parseFile a2 fp2 d2).functions.map FunctionSignature.fullSignature ∧
      (parseFile a1 fp1 d1).types.map TypeSignature.fullSignature =
        (parseFile a2 fp2 d2).types.map TypeSignature.fullSignature) ∧
    (∀ (ast : Node) (fp : String) (d : Int),
      parseFile ast fp d =
        { functions := (emitFold fp d (preorderWA ast []) ⟨[], [], none⟩).functions,
          types := (emitFold fp d (preorderWA ast []) ⟨[], [], none⟩).types }) := by
  constructor
  · rintro a1 a2 fp1 fp2 d1 d2 rfl rfl rfl
    exact ⟨rfl, rfl⟩
  · intro ast fp d
    show ({ functions := (visit fp d ast [] ⟨[], [], none⟩).functions,
            types := (visit fp d ast [] ⟨[], [], none⟩).types } : ParseResult) = _
    rw [visit_preorder]

/-- Witness for C9: two parses of the same concrete router file agree. -/
theorem c9_witness :
    (parseFile astRouterMixed "r.ts" 2).functions.map FunctionSignature.fullSignature =
      (parseFile astRouterMixed "r.ts" 2).functions.map FunctionSignature.fullSignature ∧
    (parseFile astRouterMixed "r.ts" 2).types.map TypeSignature.fullSignature =
      (parseFile astRouterMixed "r.ts" 2).types.map TypeSignature.fullSignature :=
  c9_parse_deterministic_preorder.1 astRouterMixed astRouterMixed "r.ts" "r.ts" 2 2
    rfl rfl rfl
